import Mathlib

/-!
# Verification of the input-reconciliation core of `switch-usb-control`

Shallow embedding of `src/main.rs`: the controller data model, the
digital-transition logic (`set_button_states`), the per-tick delta
(`make_packets`), the analog deadzone (`get_axis_values`), the hex encoder
(`to_hex_string`), the physical-to-logical button table (`BTN_ASSOCIATION`
and `process_button_action`), and the tick loop of `main`.

The Rust `HashMap<Button, ButtonState>` is modelled as a total function
`Button → Option ButtonState`; the iteration order used by `make_packets`
(unspecified for the Rust hash map) is fixed here to the declaration order
of the `Button` enumeration.  Machine integers (`i32`) are modelled as `Int`;
the `panic!` in `to_hex_string` is modelled as `Option.none`.
-/

namespace SwitchUsbControl

/-- The logical button enumeration, `main.rs` lines 45-66. -/
inductive Button where
  | A | B | X | Y
  | DPADRIGHT | DPADDOWN | DPADLEFT | DPADUP
  | R1 | L1 | R2 | L2 | R3 | L3
  | START | SELECT | CAPTURE | HOME
deriving DecidableEq, Repr, Fintype

/-- The stick enumeration, `main.rs` lines 68-71. -/
inductive Stick where
  | RIGHT | LEFT
deriving DecidableEq, Repr

/-- The button transition states, `main.rs` lines 73-78. -/
inductive ButtonState where
  | PRESSED | HELD | RELEASED
deriving DecidableEq, Repr, Fintype

/-- The `gilrs` physical button vocabulary (external crate `gilrs::ev::Button`). -/
inductive GilrsButton where
  | South | East | North | West
  | C | Z
  | LeftTrigger | LeftTrigger2 | RightTrigger | RightTrigger2
  | Select | Start | Mode
  | LeftThumb | RightThumb
  | DPadUp | DPadDown | DPadLeft | DPadRight
  | Unknown
deriving DecidableEq, Repr, Fintype

/-- The `gilrs` axis vocabulary (external crate `gilrs::ev::Axis`). -/
inductive Axis where
  | LeftStickX | LeftStickY | LeftZ
  | RightStickX | RightStickY | RightZ
  | DPadX | DPadY | Unknown
deriving DecidableEq, Repr

/-- `HashMap<Button, ButtonState>` modelled as a total function into `Option`. -/
def ButtonMap : Type := Button → Option ButtonState

/-- The empty button map (`HashMap::new()`). -/
def emptyButtonMap : ButtonMap := fun _ => none

/-- `HashMap::insert` / in-place assignment through `get_mut`: the entry for
`b` becomes `s`, every other entry is unchanged. -/
def insertButton (m : ButtonMap) (b : Button) (s : ButtonState) : ButtonMap :=
  fun x => if x = b then some s else m x

/-- All members of the `Button` enumeration, in declaration order; used as the
iteration order of the modelled hash map. -/
def allButtons : List Button :=
  [.A, .B, .X, .Y, .DPADRIGHT, .DPADDOWN, .DPADLEFT, .DPADUP,
   .R1, .L1, .R2, .L2, .R3, .L3, .START, .SELECT, .CAPTURE, .HOME]

/-- `struct ControllerState`, `main.rs` lines 80-88. -/
structure ControllerState where
  button_states : ButtonMap
  r_stick : Int × Int
  l_stick : Int × Int
  old_r_stick : Int × Int
  old_l_stick : Int × Int
  old_state : Option ButtonMap

/-- `ControllerState::new`, `main.rs` lines 114-123. -/
def ControllerState.new : ControllerState :=
  { r_stick := (0, 0)
    l_stick := (0, 0)
    old_l_stick := (0, 0)
    old_r_stick := (0, 0)
    button_states := emptyButtonMap
    old_state := none }

/-- `ControllerState::get_old_state`, `main.rs` lines 125-128
(`unwrap_or_default` yields the empty map when `old_state` is `None`). -/
def ControllerState.get_old_state (cs : ControllerState) : ButtonMap :=
  cs.old_state.getD emptyButtonMap

/-- `ControllerState::set_button_states`, `main.rs` lines 130-188.  The Rust
function also returns the `(Button, ButtonState)` pair, which every caller
discards; only the state update is modelled. -/
def ControllerState.set_button_states (cs : ControllerState)
    (new_button : Button) (new_state : ButtonState) : ControllerState :=
  let binding := cs.get_old_state
  let old_button_state := binding new_button
  match cs.button_states new_button with
  | some reference =>
    match reference, new_state with
    | .PRESSED, .PRESSED => cs
    | .PRESSED, .HELD => cs
    | .PRESSED, .RELEASED => cs
    | .HELD, .PRESSED =>
        { cs with button_states := insertButton cs.button_states new_button .PRESSED }
    | .HELD, .HELD => cs
    | .HELD, .RELEASED =>
        { cs with button_states := insertButton cs.button_states new_button .PRESSED }
    | .RELEASED, .PRESSED =>
        { cs with button_states := insertButton cs.button_states new_button .HELD }
    | .RELEASED, .HELD =>
        { cs with button_states := insertButton cs.button_states new_button .HELD }
    | .RELEASED, .RELEASED => cs
  | none =>
    match old_button_state with
    | some old_state =>
      match old_state, new_state with
      | .PRESSED, s =>
          { cs with button_states := insertButton cs.button_states new_button s }
      | .HELD, .PRESSED =>
          { cs with button_states := insertButton cs.button_states new_button .PRESSED }
      | .HELD, .HELD => cs
      | .HELD, .RELEASED =>
          { cs with button_states := insertButton cs.button_states new_button .RELEASED }
      | .RELEASED, .PRESSED =>
          { cs with button_states := insertButton cs.button_states new_button .PRESSED }
      | .RELEASED, .HELD =>
          { cs with button_states := insertButton cs.button_states new_button .HELD }
      | .RELEASED, .RELEASED => cs
    | none =>
        { cs with button_states := insertButton cs.button_states new_button new_state }

/-- `get_button_name`, `main.rs` lines 90-111. -/
def get_button_name : Button → String
  | .A => "A"
  | .B => "B"
  | .X => "X"
  | .Y => "Y"
  | .DPADRIGHT => "DRIGHT"
  | .DPADDOWN => "DDOWN"
  | .DPADLEFT => "DLEFT"
  | .DPADUP => "DUP"
  | .R1 => "R"
  | .L1 => "L"
  | .R2 => "ZR"
  | .L2 => "ZL"
  | .R3 => "RSTICK"
  | .L3 => "LSTICK"
  | .START => "PLUS"
  | .SELECT => "MINUS"
  | .CAPTURE => "CAPTURE"
  | .HOME => "HOME"

/-- `make_packet_for_button_state`, `main.rs` lines 213-225. -/
def make_packet_for_button_state (button : Button) (state : ButtonState) : String :=
  match state with
  | .PRESSED => "click " ++ get_button_name button
  | .HELD => "press " ++ get_button_name button
  | .RELEASED => "release " ++ get_button_name button

/-- One uppercase hexadecimal digit, as produced by Rust's `{:X}` format. -/
def hexDigitChar (d : Nat) : Char :=
  if d < 10 then Char.ofNat (48 + d) else Char.ofNat (55 + d)

/-- Four zero-padded uppercase hexadecimal digits, as produced by `{:>04X}`
for an argument below `0x10000` (the only arguments `to_hex_string` passes,
thanks to its range guard). -/
def toHex4 (m : Nat) : String :=
  String.mk [hexDigitChar (m / 4096 % 16), hexDigitChar (m / 256 % 16),
             hexDigitChar (m / 16 % 16), hexDigitChar (m % 16)]

/-- `to_hex_string`, `main.rs` lines 228-238; the `panic!` on an argument
outside `[-0x8000, 0x7FFF]` is modelled as `none`. -/
def to_hex_string (n : Int) : Option String :=
  if n < -0x8000 ∨ 0x7FFF < n then none
  else if n < 0 then some ("-0x" ++ toHex4 (-n).toNat)
  else some ("0x" ++ toHex4 n.toNat)

/-- `make_packet_for_stick`, `main.rs` lines 206-211; `none` propagates the
modelled `panic!` of `to_hex_string`. -/
def make_packet_for_stick (stick : Stick) (value : Int × Int) : Option String :=
  match to_hex_string value.1, to_hex_string value.2 with
  | some hx, some hy =>
    match stick with
    | .RIGHT => some ("setStick RIGHT " ++ hx ++ " " ++ hy)
    | .LEFT => some ("setStick LEFT " ++ hx ++ " " ++ hy)
  | _, _ => none

/-- The digital half of `ControllerState::make_packets` (`main.rs` line 192):
one command per button present in the current-tick map. -/
def ControllerState.button_packets (cs : ControllerState) : List String :=
  allButtons.filterMap fun b =>
    (cs.button_states b).map fun st => make_packet_for_button_state b st

/-- `ControllerState::make_packets`, `main.rs` lines 191-203: digital packets
first, then the right-stick packet if the right stick moved, then the
left-stick packet if the left stick moved. -/
def ControllerState.make_packets (cs : ControllerState) : Option (List String) :=
  let packets := cs.button_packets
  let afterRight : Option (List String) :=
    if cs.old_r_stick ≠ cs.r_stick then
      (make_packet_for_stick .RIGHT cs.r_stick).map fun p => packets ++ [p]
    else some packets
  match afterRight with
  | none => none
  | some ps =>
    if cs.old_l_stick ≠ cs.l_stick then
      (make_packet_for_stick .LEFT cs.l_stick).map fun p => ps ++ [p]
    else some ps

/-- The deadzone of `get_axis_values`, `main.rs` lines 241-248.  The `f32`
scaling `(value * 32767.) as i32` of line 242 is floating-point arithmetic
outside this embedding; `val` here is that already-scaled-and-truncated
integer, to which lines 243-247 apply the deadzone. -/
def get_axis_values (val : Int) : Int :=
  if val.natAbs < 5000 then 0 else val

/-- `BTN_ASSOCIATION`, `main.rs` lines 12-33: the logical-to-physical button
pairs the bidirectional map is built from. -/
def BTN_ASSOCIATION : List (Button × GilrsButton) :=
  [(.A, .East), (.B, .South), (.Y, .West), (.X, .North),
   (.DPADRIGHT, .DPadRight), (.DPADDOWN, .DPadDown),
   (.DPADLEFT, .DPadLeft), (.DPADUP, .DPadUp),
   (.R1, .RightTrigger), (.L1, .LeftTrigger),
   (.R2, .RightTrigger2), (.L2, .LeftTrigger2),
   (.R3, .RightThumb), (.L3, .LeftThumb),
   (.START, .Start), (.SELECT, .Select),
   (.HOME, .Mode), (.CAPTURE, .Unknown)]

/-- `Bimap::get_rev` on `BTN_ASSOCIATION`: physical `gilrs` button to logical
button (the direction `process_button_action` uses). -/
def btnAssociationGetRev (g : GilrsButton) : Option Button :=
  (BTN_ASSOCIATION.find? fun p => p.2 = g).map fun p => p.1

/-- `process_button_action`, `main.rs` lines 289-293: a physical button with
no table entry leaves the state unchanged. -/
def process_button_action (cs : ControllerState) (btn : GilrsButton)
    (state : ButtonState) : ControllerState :=
  match btnAssociationGetRev btn with
  | some switch_key => cs.set_button_states switch_key state
  | none => cs

/-- The raw input events the tick loop of `main` consumes (`main.rs` lines
357-374).  For an axis event, `scaled` is the integer
`(value * 32767.) as i32` of `main.rs` line 242 (the floating-point scaling
itself is outside the embedding). -/
inductive RawEvent where
  | buttonPressed (btn : GilrsButton)
  | buttonReleased (btn : GilrsButton)
  | axisChanged (axis : Axis) (scaled : Int)

/-- Processing of one drained event, `main.rs` lines 357-374: a raw down is
recorded as `HELD`, a raw up as `RELEASED`, and an axis sample overwrites one
stick coordinate through the deadzone. -/
def processEvent (cs : ControllerState) (e : RawEvent) : ControllerState :=
  match e with
  | .buttonPressed btn => process_button_action cs btn .HELD
  | .buttonReleased btn => process_button_action cs btn .RELEASED
  | .axisChanged axis v =>
    match axis with
    | .LeftStickX => { cs with l_stick := (get_axis_values v, cs.l_stick.2) }
    | .LeftStickY => { cs with l_stick := (cs.l_stick.1, get_axis_values v) }
    | .RightStickX => { cs with r_stick := (get_axis_values v, cs.r_stick.2) }
    | .RightStickY => { cs with r_stick := (cs.r_stick.1, get_axis_values v) }
    | _ => cs

/-- Draining the events of one tick window, `main.rs` lines 342-378. -/
def runTick (cs : ControllerState) (events : List RawEvent) : ControllerState :=
  events.foldl processEvent cs

/-- End-of-tick bookkeeping, `main.rs` lines 400-404: the previous-tick map
and stick positions are replaced and the current map is cleared. -/
def advance_tick (cs : ControllerState) : ControllerState :=
  { cs with
    old_state := some cs.button_states
    old_l_stick := cs.l_stick
    old_r_stick := cs.r_stick
    button_states := emptyButtonMap }

/-- A sequence of full ticks: each drains its events and then advances. -/
def runTicks (cs : ControllerState) (ticks : List (List RawEvent)) : ControllerState :=
  ticks.foldl (fun s evs => advance_tick (runTick s evs)) cs

/-- The delta produced at the end of the tick that drains `events` from `cs`
(`main.rs` line 382). -/
def tickDelta (cs : ControllerState) (events : List RawEvent) : Option (List String) :=
  (runTick cs events).make_packets

/-- A raw digital event direction, the `{down, up}` alphabet of the spec. -/
inductive RawDir where
  | down | up
deriving DecidableEq, Repr

/-- How `main` encodes a raw direction as a `ButtonState` argument to
`process_button_action` (`main.rs` lines 358-362): down becomes `HELD`, up
becomes `RELEASED`. -/
def rawToState : RawDir → ButtonState
  | .down => .HELD
  | .up => .RELEASED

/-- The transition table the merge-with-current-tick path of
`set_button_states` actually implements, stated for the raw-event alphabet:
the amended form of the table claimed in §4.1 of the spec. -/
def mergeTable : ButtonState → RawDir → ButtonState
  | .PRESSED, _ => .PRESSED
  | .HELD, .down => .HELD
  | .HELD, .up => .PRESSED
  | .RELEASED, .down => .HELD
  | .RELEASED, .up => .RELEASED

/-- The table the seed-from-previous-tick path of `set_button_states`
actually implements (`none` means no current-tick entry is created):
the amended form of the table claimed in §4.1 of the spec. -/
def seedTable : ButtonState → RawDir → Option ButtonState
  | .PRESSED, d => some (rawToState d)
  | .HELD, .down => none
  | .HELD, .up => some .RELEASED
  | .RELEASED, .down => some .HELD
  | .RELEASED, .up => none

/-- Value of one uppercase (or decimal) hexadecimal digit character. -/
def hexDigitVal (c : Char) : Option Nat :=
  if 48 ≤ c.toNat ∧ c.toNat ≤ 57 then some (c.toNat - 48)
  else if 65 ≤ c.toNat ∧ c.toNat ≤ 70 then some (c.toNat - 55)
  else none

/-- Accumulating big-endian read of a list of hexadecimal digit characters. -/
def parseHexChars : List Char → Nat → Option Nat
  | [], acc => some acc
  | c :: rest, acc =>
    match hexDigitVal c with
    | some v => parseHexChars rest (acc * 16 + v)
    | none => none

/-- Modelled from the spec: "a decoder reading the signed hexadecimal
literal recovers the original integer".  No decoder exists in `main.rs`;
this definition follows the spec's words: a `0x`-prefixed uppercase
hexadecimal literal, with an optional leading `-` for negative values. -/
def decodeSignedHex (s : String) : Option Int :=
  match s.data with
  | a :: b :: rest =>
    if a = '0' ∧ b = 'x' then (parseHexChars rest 0).map fun m => Int.ofNat m
    else
      match rest with
      | c :: rest2 =>
        if a = '-' ∧ b = '0' ∧ c = 'x' then
          (parseHexChars rest2 0).map fun m => -(Int.ofNat m)
        else none
      | [] => none
  | _ => none

/-- Both coordinates of a stick position lie in the signed 16-bit range. -/
def inRange16 (p : Int × Int) : Prop :=
  (-32768 ≤ p.1 ∧ p.1 ≤ 32767) ∧ (-32768 ≤ p.2 ∧ p.2 ≤ 32767)

/-- Every stick coordinate held in the controller state (current and
previous-tick, both sticks) lies in the signed 16-bit range. -/
def sticksInRange (cs : ControllerState) : Prop :=
  inRange16 cs.r_stick ∧ inRange16 cs.l_stick ∧
  inRange16 cs.old_r_stick ∧ inRange16 cs.old_l_stick

/-- An axis event carries a scaled value of magnitude at most 32767 — the
image of the normalized `[-1.0, 1.0]` raw axis range under the scaling of
`main.rs` line 242.  Digital events are unconstrained. -/
def boundedEvent : RawEvent → Prop
  | .axisChanged _ v => v.natAbs ≤ 32767
  | _ => True

/-! ## Helper lemmas -/

theorem insertButton_self (m : ButtonMap) (b : Button) (s : ButtonState) :
    insertButton m b s b = some s := by
  simp [insertButton]

theorem insertButton_ne (m : ButtonMap) (b : Button) (s : ButtonState)
    (b' : Button) (h : b' ≠ b) : insertButton m b s b' = m b' := by
  simp [insertButton, h]

/-- C1: FALSE as stated.  The first-ever down event for button A records the
state `HELD`, not `PRESSED`, and the tick-1 delta is `press A`, not
`click A`. -/
theorem claim_C1_counterexample :
    (runTick ControllerState.new [.buttonPressed .East]).button_states .A
      = some ButtonState.HELD ∧
    tickDelta ControllerState.new [.buttonPressed .East] ≠ some ["click A"] := by
  decide

/-- C1 (amended): a first-ever event for a button with no current-tick and no
previous-tick entry records exactly the state passed in — and `main` passes
`HELD` for a raw down event — so the tick-1 delta of the scenario contains
exactly `press A`. -/
theorem claim_C1_amended :
    (∀ (cs : ControllerState) (b : Button) (st : ButtonState),
        cs.button_states b = none → cs.get_old_state b = none →
        (cs.set_button_states b st).button_states b = some st) ∧
    tickDelta ControllerState.new [.buttonPressed .East] = some ["press A"] := by
  constructor
  · intro cs b st h h2
    simp [ControllerState.set_button_states, h, h2, insertButton]
  · decide

/-- Witness for C1: the general clause of `claim_C1_amended` applied at the
initial state and button A. -/
theorem claim_C1_witness :
    (ControllerState.new.set_button_states .A .HELD).button_states .A
      = some ButtonState.HELD :=
  claim_C1_amended.1 ControllerState.new .A .HELD rfl rfl

/-- C2: FALSE as stated.  A current-tick entry `HELD` receiving a fresh down
event stays `HELD`; the claimed table demands `PRESSED`. -/
theorem claim_C2_counterexample :
    (runTick ControllerState.new
        [.buttonPressed .East, .buttonPressed .East]).button_states .A
      = some ButtonState.HELD ∧
    (runTick ControllerState.new
        [.buttonPressed .East, .buttonPressed .East]).button_states .A
      ≠ some ButtonState.PRESSED := by
  decide

/-- C2 (amended): the two paths of `set_button_states` follow two different
tables.  Merge-with-current-tick path (`mergeTable`): Pressed stays Pressed
on both down and up; Held stays Held on down and becomes Pressed on up;
Released becomes Held on down and stays Released on up.
Seed-from-previous-tick path (`seedTable`): a previous Pressed entry records
the raw event's encoding (down gives Held, up gives Released); a previous
Held entry records nothing on down and Released on up; a previous Released
entry records Held on down and nothing on up. -/
theorem claim_C2_amended :
    ∀ (cs : ControllerState) (b : Button) (d : RawDir) (r o : ButtonState),
      (cs.button_states b = some r →
        (cs.set_button_states b (rawToState d)).button_states b
          = some (mergeTable r d)) ∧
      (cs.button_states b = none → cs.get_old_state b = some o →
        (cs.set_button_states b (rawToState d)).button_states b
          = seedTable o d) := by
  intro cs b d r o
  constructor
  · intro h
    cases d <;> cases r <;>
      simp [ControllerState.set_button_states, rawToState, mergeTable, h,
        insertButton]
  · intro h h2
    cases d <;> cases o <;>
      simp [ControllerState.set_button_states, rawToState, seedTable, h, h2,
        insertButton]

/-- Witness for C2: both clauses of `claim_C2_amended` applied at concrete
states — a current-tick `HELD` entry receiving a down event, and a
previous-tick `HELD` entry receiving a down event. -/
theorem claim_C2_witness :
    ((runTick ControllerState.new [.buttonPressed .East]).set_button_states .A
        (rawToState .down)).button_states .A = some (mergeTable .HELD .down) ∧
    ((advance_tick (runTick ControllerState.new
        [.buttonPressed .East])).set_button_states .A
        (rawToState .down)).button_states .A = seedTable .HELD .down := by
  constructor
  · exact (claim_C2_amended (runTick ControllerState.new [.buttonPressed .East])
      .A .down .HELD .HELD).1 (by decide)
  · exact (claim_C2_amended (advance_tick (runTick ControllerState.new
      [.buttonPressed .East])) .A .down .HELD .HELD).2 (by decide) (by decide)

theorem hexDigitVal_hexDigitChar (d : Nat) (hd : d < 16) :
    hexDigitVal (hexDigitChar d) = some d := by
  interval_cases d <;> rfl

theorem parse_toHex4 (m : Nat) (hm : m < 65536) :
    parseHexChars (toHex4 m).data 0 = some m := by
  have h1 : m / 4096 % 16 < 16 := Nat.mod_lt _ (by norm_num)
  have h2 : m / 256 % 16 < 16 := Nat.mod_lt _ (by norm_num)
  have h3 : m / 16 % 16 < 16 := Nat.mod_lt _ (by norm_num)
  have h4 : m % 16 < 16 := Nat.mod_lt _ (by norm_num)
  have hdata : (toHex4 m).data =
      [hexDigitChar (m / 4096 % 16), hexDigitChar (m / 256 % 16),
       hexDigitChar (m / 16 % 16), hexDigitChar (m % 16)] := rfl
  rw [hdata]
  simp only [parseHexChars, hexDigitVal_hexDigitChar _ h1,
    hexDigitVal_hexDigitChar _ h2, hexDigitVal_hexDigitChar _ h3,
    hexDigitVal_hexDigitChar _ h4]
  congr 1
  omega

theorem decode_to_hex_string (n : Int) (h1 : -32768 ≤ n) (h2 : n ≤ 32767) :
    (to_hex_string n).bind decodeSignedHex = some n := by
  unfold to_hex_string
  rw [if_neg (by omega)]
  by_cases hn : n < 0
  · rw [if_pos hn]
    have hm : (-n).toNat < 65536 := by omega
    have hd : ("-0x" ++ toHex4 (-n).toNat).data =
        '-' :: '0' :: 'x' :: (toHex4 (-n).toNat).data := by
      rw [String.data_append]; rfl
    simp only [Option.some_bind]
    unfold decodeSignedHex
    rw [hd]
    simp only [reduceIte, reduceCtorEq, Char.reduceEq, false_and, and_self,
      if_false, if_true]
    rw [parse_toHex4 _ hm]
    simp only [Option.map_some', Int.ofNat_eq_natCast]
    congr 1
    omega
  · rw [if_neg hn]
    have hm : n.toNat < 65536 := by omega
    have hd : ("0x" ++ toHex4 n.toNat).data =
        '0' :: 'x' :: (toHex4 n.toNat).data := by
      rw [String.data_append]; rfl
    simp only [Option.some_bind]
    unfold decodeSignedHex
    rw [hd]
    simp only [reduceIte, reduceCtorEq, Char.reduceEq, false_and, and_self,
      if_false, if_true]
    rw [parse_toHex4 _ hm]
    simp only [Option.map_some', Int.ofNat_eq_natCast]
    congr 1
    omega

/-- C5: the stick-coordinate hex encoding round-trips through a signed
hexadecimal reader on `[-32768, 32767]`, is injective there, and produces
`-0x0001`, `0x7FFF` and `0x0000` on the spec's three examples. -/
theorem claim_C5 :
    (∀ n : Int, -32768 ≤ n → n ≤ 32767 →
      (to_hex_string n).bind decodeSignedHex = some n) ∧
    (∀ m n : Int, -32768 ≤ m → m ≤ 32767 → -32768 ≤ n → n ≤ 32767 →
      to_hex_string m = to_hex_string n → m = n) ∧
    to_hex_string (-1) = some "-0x0001" ∧
    to_hex_string 32767 = some "0x7FFF" ∧
    to_hex_string 0 = some "0x0000" := by
  refine ⟨decode_to_hex_string, ?_, by decide, by decide, by decide⟩
  intro m n hm1 hm2 hn1 hn2 he
  have h1 := decode_to_hex_string m hm1 hm2
  have h2 := decode_to_hex_string n hn1 hn2
  rw [he, h2] at h1
  exact (Option.some.inj h1).symm

/-- Witness for C5: the round-trip and injectivity clauses applied at
concrete coordinates. -/
theorem claim_C5_witness :
    (to_hex_string (-12345)).bind decodeSignedHex = some (-12345) ∧
    (to_hex_string 5000 = to_hex_string 5000 → (5000 : Int) = 5000) := by
  constructor
  · exact claim_C5.1 (-12345) (by norm_num) (by norm_num)
  · exact claim_C5.2.1 5000 5000 (by norm_num) (by norm_num) (by norm_num)
      (by norm_num)

theorem tickDelta_advance_nil (s : ControllerState) :
    tickDelta (advance_tick s) [] = some [] := by
  unfold tickDelta runTick advance_tick ControllerState.make_packets
    ControllerState.button_packets
  simp [emptyButtonMap, allButtons]

theorem empty_ticks_delta (k : Nat) :
    ∀ s : ControllerState,
      tickDelta (runTicks (advance_tick s) (List.replicate k [])) [] = some [] := by
  induction k with
  | zero => intro s; exact tickDelta_advance_nil s
  | succ k ih =>
    intro s
    have hstep : runTicks (advance_tick s) (List.replicate (k + 1) []) =
        runTicks (advance_tick (advance_tick s)) (List.replicate k []) := by
      simp [List.replicate_succ, runTicks, runTick]
    rw [hstep]
    exact ih (advance_tick s)

/-- C3: FALSE as stated.  A button pressed in tick 1 with no further events
yields the delta `press A` in tick 1 (not `click A`), and an empty delta in
tick 2 (not `press A`). -/
theorem claim_C3_counterexample :
    tickDelta ControllerState.new [.buttonPressed .East] ≠ some ["click A"] ∧
    tickDelta ControllerState.new [.buttonPressed .East] = some ["press A"] ∧
    tickDelta (advance_tick (runTick ControllerState.new [.buttonPressed .East]))
      [] = some [] := by
  decide

/-- C3 (amended): for every mapped physical button pressed in tick N from the
initial state and receiving no further events while remaining down, the tick-N
delta contains exactly `press <NAME>`, and the delta of every later tick is
empty — in particular `click <NAME>` is never emitted. -/
theorem claim_C3_amended :
    ∀ (gb : GilrsButton) (lb : Button),
      btnAssociationGetRev gb = some lb →
      tickDelta ControllerState.new [.buttonPressed gb] =
        some ["press " ++ get_button_name lb] ∧
      ∀ k : Nat,
        tickDelta (runTicks (advance_tick (runTick ControllerState.new
          [.buttonPressed gb])) (List.replicate k [])) [] = some [] := by
  intro gb lb h
  refine ⟨?_, fun k => empty_ticks_delta k _⟩
  revert lb
  cases gb <;> decide

/-- Witness for C3: `claim_C3_amended` applied to the physical East button,
which maps to the logical A button. -/
theorem claim_C3_witness :
    tickDelta ControllerState.new [.buttonPressed .East] =
      some ["press " ++ get_button_name .A] ∧
    tickDelta (runTicks (advance_tick (runTick ControllerState.new
      [.buttonPressed .East])) (List.replicate 1 [])) [] = some [] := by
  have h := claim_C3_amended .East .A (by decide)
  exact ⟨h.1, h.2 1⟩

theorem set_button_states_fields (cs : ControllerState) (b : Button)
    (s : ButtonState) :
    (cs.set_button_states b s).r_stick = cs.r_stick ∧
    (cs.set_button_states b s).l_stick = cs.l_stick ∧
    (cs.set_button_states b s).old_r_stick = cs.old_r_stick ∧
    (cs.set_button_states b s).old_l_stick = cs.old_l_stick ∧
    (cs.set_button_states b s).old_state = cs.old_state := by
  cases h1 : cs.button_states b with
  | some r =>
    cases r <;> cases s <;> simp [ControllerState.set_button_states, h1]
  | none =>
    cases h2 : cs.get_old_state b with
    | some o =>
      cases o <;> cases s <;> simp [ControllerState.set_button_states, h1, h2]
    | none => simp [ControllerState.set_button_states, h1, h2]

theorem set_button_states_other (cs : ControllerState) (b : Button)
    (s : ButtonState) (b' : Button) (h : b' ≠ b) :
    (cs.set_button_states b s).button_states b' = cs.button_states b' := by
  cases h1 : cs.button_states b with
  | some r =>
    cases r <;> cases s <;>
      simp [ControllerState.set_button_states, h1, insertButton, h]
  | none =>
    cases h2 : cs.get_old_state b with
    | some o =>
      cases o <;> cases s <;>
        simp [ControllerState.set_button_states, h1, h2, insertButton, h]
    | none => simp [ControllerState.set_button_states, h1, h2, insertButton, h]

theorem set_button_states_released_noop (cs : ControllerState) (b : Button)
    (h : cs.button_states b = none) (h2 : cs.get_old_state b = some .RELEASED) :
    cs.set_button_states b .RELEASED = cs := by
  simp [ControllerState.set_button_states, h, h2]

theorem processEvent_old_state (cs : ControllerState) (e : RawEvent) :
    (processEvent cs e).old_state = cs.old_state := by
  cases e with
  | buttonPressed gb =>
    cases hgr : btnAssociationGetRev gb with
    | none => simp [processEvent, process_button_action, hgr]
    | some k =>
      simp only [processEvent, process_button_action, hgr]
      exact (set_button_states_fields cs k .HELD).2.2.2.2
  | buttonReleased gb =>
    cases hgr : btnAssociationGetRev gb with
    | none => simp [processEvent, process_button_action, hgr]
    | some k =>
      simp only [processEvent, process_button_action, hgr]
      exact (set_button_states_fields cs k .RELEASED).2.2.2.2
  | axisChanged a v => cases a <;> rfl

theorem processEvent_not_reinsert (cs : ControllerState) (e : RawEvent)
    (lb : Button)
    (hcur : cs.button_states lb = none)
    (hold : cs.get_old_state lb = some .RELEASED)
    (he : ∀ gb, e = .buttonPressed gb → btnAssociationGetRev gb ≠ some lb) :
    (processEvent cs e).button_states lb = none := by
  cases e with
  | buttonPressed gb =>
    cases hgr : btnAssociationGetRev gb with
    | none => simpa [processEvent, process_button_action, hgr] using hcur
    | some k =>
      have hk : lb ≠ k := by
        intro hke
        exact he gb rfl (hke ▸ hgr)
      simp only [processEvent, process_button_action, hgr]
      rw [set_button_states_other cs k .HELD lb hk]
      exact hcur
  | buttonReleased gb =>
    cases hgr : btnAssociationGetRev gb with
    | none => simpa [processEvent, process_button_action, hgr] using hcur
    | some k =>
      simp only [processEvent, process_button_action, hgr]
      by_cases hk : lb = k
      · subst hk
        rw [set_button_states_released_noop cs lb hcur hold]
        exact hcur
      · rw [set_button_states_other cs k .RELEASED lb hk]
        exact hcur
  | axisChanged a v =>
    cases a <;> exact hcur

theorem runTick_not_reinsert (evs : List RawEvent) :
    ∀ (cs : ControllerState) (lb : Button),
      cs.button_states lb = none →
      cs.get_old_state lb = some .RELEASED →
      (∀ gb, RawEvent.buttonPressed gb ∈ evs → btnAssociationGetRev gb ≠ some lb) →
      (runTick cs evs).button_states lb = none := by
  induction evs with
  | nil => intro cs lb h _ _; exact h
  | cons e rest ih =>
    intro cs lb hcur hold he
    have hstep : runTick cs (e :: rest) = runTick (processEvent cs e) rest := rfl
    rw [hstep]
    have hold' : (processEvent cs e).get_old_state lb = some .RELEASED := by
      unfold ControllerState.get_old_state
      rw [processEvent_old_state]
      exact hold
    refine ih (processEvent cs e) lb ?_ hold' ?_
    · exact processEvent_not_reinsert cs e lb hcur hold
        (fun gb hgb => he gb (hgb ▸ List.mem_cons_self e rest))
    · intro gb hgb
      exact he gb (List.mem_cons_of_mem e hgb)

theorem make_packet_inj (b b' : Button) (s s' : ButtonState)
    (h : make_packet_for_button_state b s = make_packet_for_button_state b' s') :
    b = b' ∧ s = s' := by
  revert h
  revert b b' s s'
  decide

theorem count_filterMap_one {α β : Type} [DecidableEq α] [DecidableEq β]
    (g : α → Option β) (a : α) (v : β) :
    ∀ l : List α, l.Nodup → a ∈ l → g a = some v →
      (∀ x ∈ l, x ≠ a → g x ≠ some v) →
      (l.filterMap g).count v = 1 := by
  intro l
  induction l with
  | nil => intro _ ha; exact absurd ha (List.not_mem_nil a)
  | cons x xs ih =>
    intro hnd hmem hga hother
    have hnd' := (List.nodup_cons.mp hnd).2
    have hxnotin := (List.nodup_cons.mp hnd).1
    by_cases hx : x = a
    · subst hx
      rw [List.filterMap_cons_some hga]
      rw [List.count_cons_self]
      have hzero : (xs.filterMap g).count v = 0 := by
        rw [List.count_eq_zero]
        intro hvmem
        obtain ⟨y, hy, hgy⟩ := List.mem_filterMap.mp hvmem
        have hyx : y ≠ x := fun hyx => hxnotin (hyx ▸ hy)
        exact hother y (List.mem_cons_of_mem x hy) hyx hgy
      omega
    · have hmem' : a ∈ xs := by
        rcases List.mem_cons.mp hmem with h | h
        · exact absurd h.symm hx
        · exact h
      have hrec := ih hnd' hmem' hga
        (fun y hy hne => hother y (List.mem_cons_of_mem x hy) hne)
      cases hgx : g x with
      | none => rw [List.filterMap_cons_none hgx]; exact hrec
      | some w =>
        rw [List.filterMap_cons_some hgx]
        have hwv : w ≠ v := by
          intro hwv
          exact hother x (List.mem_cons_self x xs) hx (hwv ▸ hgx)
        rw [List.count_cons_of_ne (fun hvw => hwv hvw.symm)]
        exact hrec

theorem mem_allButtons (b : Button) : b ∈ allButtons := by
  cases b <;> decide

/-- C4: FALSE as stated.  A button released in tick 1 reports `release A`;
tick 2 is empty; but a further up event in tick 3 — with no down event ever
arriving — re-records Released and re-emits `release A`, because the
previous-tick memory of the release was dropped at the end of tick 2. -/
theorem claim_C4_counterexample :
    tickDelta ControllerState.new [.buttonReleased .East] = some ["release A"] ∧
    tickDelta (advance_tick (runTick ControllerState.new
      [.buttonReleased .East])) [] = some [] ∧
    tickDelta (advance_tick (runTick (advance_tick (runTick ControllerState.new
      [.buttonReleased .East])) [])) [.buttonReleased .East]
      = some ["release A"] := by
  decide

/-- C4 (amended): a button recorded Released in tick N contributes
`release <NAME>` to tick N's digital packets exactly once, and it is absent
from the current-tick record (hence from the delta) of tick N+1 as long as no
down event for it arrives in tick N+1; a repeated up event arriving two or
more ticks later, after the previous-tick memory of the release is dropped,
records Released again and re-emits `release <NAME>`. -/
theorem claim_C4_amended :
    ∀ (cs : ControllerState) (lb : Button),
      cs.button_states lb = some .RELEASED →
      cs.button_packets.count ("release " ++ get_button_name lb) = 1 ∧
      ∀ evs : List RawEvent,
        (∀ gb, RawEvent.buttonPressed gb ∈ evs →
          btnAssociationGetRev gb ≠ some lb) →
        (runTick (advance_tick cs) evs).button_states lb = none := by
  intro cs lb h
  constructor
  · have hpkt : ("release " ++ get_button_name lb)
        = make_packet_for_button_state lb .RELEASED := rfl
    rw [hpkt]
    refine count_filterMap_one _ lb _ allButtons (by decide) (mem_allButtons lb)
      (by rw [h]; rfl) ?_
    intro x _ hxne hgx
    cases hsx : cs.button_states x with
    | none => rw [hsx] at hgx; exact Option.noConfusion hgx
    | some st =>
      rw [hsx] at hgx
      simp only [Option.map_some'] at hgx
      exact hxne (make_packet_inj x lb st .RELEASED
        (Option.some.inj hgx)).1
  · intro evs he
    refine runTick_not_reinsert evs (advance_tick cs) lb rfl ?_ he
    unfold advance_tick ControllerState.get_old_state
    simp only [Option.getD_some]
    exact h

/-- Witness for C4: `claim_C4_amended` applied to the state in which A was
just released, with an event-free following tick. -/
theorem claim_C4_witness :
    (runTick ControllerState.new [.buttonReleased .East]).button_packets.count
      ("release " ++ get_button_name .A) = 1 ∧
    (runTick (advance_tick (runTick ControllerState.new
      [.buttonReleased .East])) []).button_states .A = none := by
  have h := claim_C4_amended (runTick ControllerState.new
    [.buttonReleased .East]) .A (by decide)
  exact ⟨h.1, h.2 [] (by simp)⟩

theorem get_axis_values_bound (v : Int) (h : v.natAbs ≤ 32767) :
    -32768 ≤ get_axis_values v ∧ get_axis_values v ≤ 32767 := by
  unfold get_axis_values
  split <;> omega

theorem sticksInRange_set_button_states (cs : ControllerState) (b : Button)
    (s : ButtonState) (h : sticksInRange cs) :
    sticksInRange (cs.set_button_states b s) := by
  have hf := set_button_states_fields cs b s
  unfold sticksInRange
  rw [hf.1, hf.2.1, hf.2.2.1, hf.2.2.2.1]
  exact h

theorem processEvent_sticksInRange (cs : ControllerState) (e : RawEvent)
    (hb : boundedEvent e) (hs : sticksInRange cs) :
    sticksInRange (processEvent cs e) := by
  obtain ⟨hr, hl, hor, hol⟩ := hs
  cases e with
  | buttonPressed gb =>
    cases hgr : btnAssociationGetRev gb with
    | none => simpa [processEvent, process_button_action, hgr] using
        ⟨hr, hl, hor, hol⟩
    | some k =>
      simp only [processEvent, process_button_action, hgr]
      exact sticksInRange_set_button_states cs k .HELD ⟨hr, hl, hor, hol⟩
  | buttonReleased gb =>
    cases hgr : btnAssociationGetRev gb with
    | none => simpa [processEvent, process_button_action, hgr] using
        ⟨hr, hl, hor, hol⟩
    | some k =>
      simp only [processEvent, process_button_action, hgr]
      exact sticksInRange_set_button_states cs k .RELEASED ⟨hr, hl, hor, hol⟩
  | axisChanged a v =>
    have hgav := get_axis_values_bound v hb
    cases a <;> simp_all [processEvent, sticksInRange, inRange16]

theorem runTick_sticksInRange (evs : List RawEvent) :
    ∀ cs : ControllerState, sticksInRange cs →
      (∀ e ∈ evs, boundedEvent e) →
      sticksInRange (runTick cs evs) := by
  induction evs with
  | nil => intro cs hs _; exact hs
  | cons e rest ih =>
    intro cs hs hb
    exact ih (processEvent cs e)
      (processEvent_sticksInRange cs e (hb e (List.mem_cons_self e rest)) hs)
      (fun x hx => hb x (List.mem_cons_of_mem e hx))

theorem advance_tick_sticksInRange (cs : ControllerState)
    (h : sticksInRange cs) : sticksInRange (advance_tick cs) :=
  ⟨h.1, h.2.1, h.1, h.2.1⟩

theorem runTicks_sticksInRange (ticks : List (List RawEvent)) :
    ∀ cs : ControllerState, sticksInRange cs →
      (∀ t ∈ ticks, ∀ e ∈ t, boundedEvent e) →
      sticksInRange (runTicks cs ticks) := by
  induction ticks with
  | nil => intro cs hs _; exact hs
  | cons t rest ih =>
    intro cs hs hb
    exact ih (advance_tick (runTick cs t))
      (advance_tick_sticksInRange _
        (runTick_sticksInRange t cs hs (hb t (List.mem_cons_self t rest))))
      (fun x hx => hb x (List.mem_cons_of_mem t hx))

theorem to_hex_string_isSome (x : Int) (h1 : -32768 ≤ x) (h2 : x ≤ 32767) :
    ∃ s, to_hex_string x = some s := by
  unfold to_hex_string
  rw [if_neg (by omega)]
  split <;> exact ⟨_, rfl⟩

theorem make_packet_for_stick_isSome (stick : Stick) (v : Int × Int)
    (h : inRange16 v) : ∃ p, make_packet_for_stick stick v = some p := by
  obtain ⟨sx, hx⟩ := to_hex_string_isSome v.1 h.1.1 h.1.2
  obtain ⟨sy, hy⟩ := to_hex_string_isSome v.2 h.2.1 h.2.2
  cases stick with
  | RIGHT => exact ⟨"setStick RIGHT " ++ sx ++ " " ++ sy,
      by simp [make_packet_for_stick, hx, hy]⟩
  | LEFT => exact ⟨"setStick LEFT " ++ sx ++ " " ++ sy,
      by simp [make_packet_for_stick, hx, hy]⟩

theorem make_packets_isSome (cs : ControllerState) (h : sticksInRange cs) :
    (cs.make_packets).isSome := by
  obtain ⟨pr, hpr⟩ := make_packet_for_stick_isSome .RIGHT cs.r_stick h.1
  obtain ⟨pl, hpl⟩ := make_packet_for_stick_isSome .LEFT cs.l_stick h.2.1
  unfold ControllerState.make_packets
  by_cases h1 : cs.old_r_stick ≠ cs.r_stick <;>
    by_cases h2 : cs.old_l_stick ≠ cs.l_stick <;>
      simp [h1, h2, hpr, hpl]

/-- C7: starting from the initial state, after any sequence of ticks and any
partial tick whose axis samples all carry scaled magnitude at most 32767
(the image of the normalized raw range `[-1.0, 1.0]`), every stick coordinate
held in the controller state — current and previous-tick, both sticks — lies
in `[-32768, 32767]`, and consequently `make_packets` never reaches the
out-of-range `panic!` branch of `to_hex_string`. -/
theorem claim_C7 :
    ∀ (ticks : List (List RawEvent)) (evs : List RawEvent),
      (∀ t ∈ ticks, ∀ e ∈ t, boundedEvent e) →
      (∀ e ∈ evs, boundedEvent e) →
      sticksInRange (runTick (runTicks ControllerState.new ticks) evs) ∧
      ((runTick (runTicks ControllerState.new ticks) evs).make_packets).isSome := by
  intro ticks evs h1 h2
  have hnew : sticksInRange ControllerState.new := by
    refine ⟨⟨?_, ?_⟩, ⟨?_, ?_⟩, ⟨?_, ?_⟩, ⟨?_, ?_⟩⟩ <;>
      simp [ControllerState.new]
  have hs := runTick_sticksInRange evs (runTicks ControllerState.new ticks)
    (runTicks_sticksInRange ticks ControllerState.new hnew h1) h2
  exact ⟨hs, make_packets_isSome _ hs⟩

/-- Witness for C7: the invariant at a concrete run — one tick moving the
left stick to its extreme, then a partial tick pressing A. -/
theorem claim_C7_witness :
    sticksInRange (runTick (runTicks ControllerState.new
      [[.axisChanged .LeftStickX 32767]]) [.buttonPressed .East]) ∧
    ((runTick (runTicks ControllerState.new
      [[.axisChanged .LeftStickX 32767]])
      [.buttonPressed .East]).make_packets).isSome := by
  exact claim_C7 [[.axisChanged .LeftStickX 32767]] [.buttonPressed .East]
    (by intro t ht e he
        simp at ht
        subst ht
        simp at he
        subst he
        norm_num [boundedEvent])
    (by intro e he
        simp at he
        subst he
        simp [boundedEvent])

theorem data_take_ne {s t : String} {n : Nat}
    (h : s.data.take n ≠ t.data.take n) : s ≠ t := by
  intro he
  exact h (by rw [he])

theorem take_data_append4 (p x s y : String) (n : Nat)
    (hn : n ≤ p.data.length) :
    (p ++ x ++ s ++ y).data.take n = p.data.take n := by
  rw [String.data_append, String.data_append, String.data_append]
  have l2 : n ≤ (p.data ++ x.data).length := by
    rw [List.length_append]; omega
  have l1 : n ≤ ((p.data ++ x.data) ++ s.data).length := by
    rw [List.length_append]; omega
  rw [List.take_append_of_le_length l1, List.take_append_of_le_length l2,
    List.take_append_of_le_length hn]

theorem button_packet_ne_stick (b : Button) (st : ButtonState)
    (p x y : String) (hp : p.data.take 1 = ['s']) (hl : 1 ≤ p.data.length) :
    make_packet_for_button_state b st ≠ p ++ x ++ " " ++ y := by
  apply data_take_ne (n := 1)
  rw [take_data_append4 _ _ _ _ 1 hl, hp]
  cases st <;> cases b <;> decide

theorem stick_strings_ne (x y u w : String) :
    ("setStick RIGHT " ++ x ++ " " ++ y) ≠ ("setStick LEFT " ++ u ++ " " ++ w) := by
  apply data_take_ne (n := 10)
  rw [take_data_append4 _ _ _ _ 10 (by decide),
    take_data_append4 _ _ _ _ 10 (by decide)]
  decide

theorem make_packet_for_stick_right_shape (v : Int × Int) (p : String)
    (h : make_packet_for_stick .RIGHT v = some p) :
    ∃ hx hy, p = "setStick RIGHT " ++ hx ++ " " ++ hy := by
  unfold make_packet_for_stick at h
  cases h1 : to_hex_string v.1 with
  | none => rw [h1] at h; exact Option.noConfusion h
  | some sx =>
    cases h2 : to_hex_string v.2 with
    | none => rw [h1, h2] at h; exact Option.noConfusion h
    | some sy =>
      rw [h1, h2] at h
      exact ⟨sx, sy, (Option.some.inj h).symm⟩

theorem make_packet_for_stick_left_shape (v : Int × Int) (p : String)
    (h : make_packet_for_stick .LEFT v = some p) :
    ∃ hx hy, p = "setStick LEFT " ++ hx ++ " " ++ hy := by
  unfold make_packet_for_stick at h
  cases h1 : to_hex_string v.1 with
  | none => rw [h1] at h; exact Option.noConfusion h
  | some sx =>
    cases h2 : to_hex_string v.2 with
    | none => rw [h1, h2] at h; exact Option.noConfusion h
    | some sy =>
      rw [h1, h2] at h
      exact ⟨sx, sy, (Option.some.inj h).symm⟩

theorem mem_button_packets (cs : ControllerState) (q : String)
    (h : q ∈ cs.button_packets) :
    ∃ b st, cs.button_states b = some st ∧ q = make_packet_for_button_state b st := by
  obtain ⟨b, _, hb⟩ := List.mem_filterMap.mp h
  cases hsb : cs.button_states b with
  | none => rw [hsb] at hb; exact Option.noConfusion hb
  | some st =>
    rw [hsb] at hb
    simp only [Option.map_some'] at hb
    exact ⟨b, st, hsb, (Option.some.inj hb).symm⟩

theorem make_packets_eq (cs : ControllerState) (l : List String)
    (h : cs.make_packets = some l) :
    ∃ rl ll, l = cs.button_packets ++ rl ++ ll ∧
      ((cs.old_r_stick ≠ cs.r_stick ∧
        ∃ p, make_packet_for_stick .RIGHT cs.r_stick = some p ∧ rl = [p]) ∨
       (cs.old_r_stick = cs.r_stick ∧ rl = [])) ∧
      ((cs.old_l_stick ≠ cs.l_stick ∧
        ∃ p, make_packet_for_stick .LEFT cs.l_stick = some p ∧ ll = [p]) ∨
       (cs.old_l_stick = cs.l_stick ∧ ll = [])) := by
  simp only [ControllerState.make_packets] at h
  by_cases h1 : cs.old_r_stick ≠ cs.r_stick
  · rw [if_pos h1] at h
    cases hr : make_packet_for_stick .RIGHT cs.r_stick with
    | none => rw [hr] at h; exact Option.noConfusion h
    | some pr =>
      rw [hr] at h
      simp only [Option.map_some'] at h
      by_cases h2 : cs.old_l_stick ≠ cs.l_stick
      · rw [if_pos h2] at h
        cases hl : make_packet_for_stick .LEFT cs.l_stick with
        | none => rw [hl] at h; exact Option.noConfusion h
        | some pl =>
          rw [hl] at h
          simp only [Option.map_some'] at h
          exact ⟨[pr], [pl], (Option.some.inj h).symm,
            Or.inl ⟨h1, pr, rfl, rfl⟩, Or.inl ⟨h2, pl, rfl, rfl⟩⟩
      · rw [if_neg h2] at h
        refine ⟨[pr], [], ?_, Or.inl ⟨h1, pr, rfl, rfl⟩,
          Or.inr ⟨not_ne_iff.mp h2, rfl⟩⟩
        rw [List.append_nil]
        exact (Option.some.inj h).symm
  · rw [if_neg h1] at h
    replace h : (if cs.old_l_stick ≠ cs.l_stick then
        Option.map (fun p => cs.button_packets ++ [p])
          (make_packet_for_stick Stick.LEFT cs.l_stick)
      else some cs.button_packets) = some l := h
    by_cases h2 : cs.old_l_stick ≠ cs.l_stick
    · rw [if_pos h2] at h
      cases hl : make_packet_for_stick .LEFT cs.l_stick with
      | none => rw [hl] at h; exact Option.noConfusion h
      | some pl =>
        rw [hl] at h
        simp only [Option.map_some'] at h
        refine ⟨[], [pl], ?_, Or.inr ⟨not_ne_iff.mp h1, rfl⟩,
          Or.inl ⟨h2, pl, rfl, rfl⟩⟩
        rw [List.append_nil]
        exact (Option.some.inj h).symm
    · rw [if_neg h2] at h
      refine ⟨[], [], ?_, Or.inr ⟨not_ne_iff.mp h1, rfl⟩,
        Or.inr ⟨not_ne_iff.mp h2, rfl⟩⟩
      rw [List.append_nil, List.append_nil]
      exact (Option.some.inj h).symm

/-- C8: when the delta of a tick exists, it contains the right-stick
(respectively left-stick) `setStick` command if and only if that stick's
current position differs from its previous-tick position — in particular a
tick in which both coordinates are unchanged emits no stick command even if
samples producing the same stored value were recorded. -/
theorem claim_C8 :
    ∀ (cs : ControllerState) (l : List String), cs.make_packets = some l →
      ((∃ p, make_packet_for_stick .RIGHT cs.r_stick = some p ∧ p ∈ l) ↔
        cs.r_stick ≠ cs.old_r_stick) ∧
      ((∃ p, make_packet_for_stick .LEFT cs.l_stick = some p ∧ p ∈ l) ↔
        cs.l_stick ≠ cs.old_l_stick) := by
  intro cs l h
  obtain ⟨rl, ll, hsplit, hrd, hld⟩ := make_packets_eq cs l h
  constructor
  · constructor
    · rintro ⟨p, hp, hmem⟩ heq
      obtain ⟨sx, sy, hpshape⟩ := make_packet_for_stick_right_shape _ _ hp
      rcases hrd with ⟨hne, _⟩ | ⟨_, hrle⟩
      · exact hne heq.symm
      · subst hrle
        rw [hsplit, List.append_nil] at hmem
        rcases List.mem_append.mp hmem with hbp | hll
        · obtain ⟨b, st, _, hq⟩ := mem_button_packets cs p hbp
          exact button_packet_ne_stick b st "setStick RIGHT " sx sy
            (by decide) (by decide) (hq.symm.trans hpshape)
        · rcases hld with ⟨_, pl, hpl, hlle⟩ | ⟨_, hlle⟩
          · subst hlle
            obtain ⟨ux, uy, hplshape⟩ := make_packet_for_stick_left_shape _ _ hpl
            have : p = pl := List.mem_singleton.mp hll
            rw [hpshape, hplshape] at this
            exact stick_strings_ne sx sy ux uy this
          · subst hlle
            exact List.not_mem_nil p hll
    · intro hne
      rcases hrd with ⟨_, p, hp, hrle⟩ | ⟨heq, _⟩
      · subst hrle
        exact ⟨p, hp, by rw [hsplit]; simp⟩
      · exact absurd heq.symm hne
  · constructor
    · rintro ⟨p, hp, hmem⟩ heq
      obtain ⟨sx, sy, hpshape⟩ := make_packet_for_stick_left_shape _ _ hp
      rcases hld with ⟨hne, _⟩ | ⟨_, hlle⟩
      · exact hne heq.symm
      · subst hlle
        rw [hsplit, List.append_nil] at hmem
        rcases List.mem_append.mp hmem with hbp | hrl
        · obtain ⟨b, st, _, hq⟩ := mem_button_packets cs p hbp
          exact button_packet_ne_stick b st "setStick LEFT " sx sy
            (by decide) (by decide) (hq.symm.trans hpshape)
        · rcases hrd with ⟨_, pr, hpr, hrle⟩ | ⟨_, hrle⟩
          · subst hrle
            obtain ⟨ux, uy, hprshape⟩ := make_packet_for_stick_right_shape _ _ hpr
            have : p = pr := List.mem_singleton.mp hrl
            rw [hpshape, hprshape] at this
            exact stick_strings_ne ux uy sx sy this.symm
          · subst hrle
            exact List.not_mem_nil p hrl
    · intro hne
      rcases hld with ⟨_, p, hp, hlle⟩ | ⟨heq, _⟩
      · subst hlle
        exact ⟨p, hp, by rw [hsplit]; simp⟩
      · exact absurd heq.symm hne

/-- Witness for C8: a tick moving only the right stick — the right-stick
command is present, the left-stick command absent. -/
theorem claim_C8_witness :
    ((∃ p, make_packet_for_stick .RIGHT
        (runTick ControllerState.new [.axisChanged .RightStickX 6000]).r_stick
        = some p ∧ p ∈ ["setStick RIGHT 0x1770 0x0000"]) ↔
      (runTick ControllerState.new [.axisChanged .RightStickX 6000]).r_stick ≠
      (runTick ControllerState.new [.axisChanged .RightStickX 6000]).old_r_stick) ∧
    ((∃ p, make_packet_for_stick .LEFT
        (runTick ControllerState.new [.axisChanged .RightStickX 6000]).l_stick
        = some p ∧ p ∈ ["setStick RIGHT 0x1770 0x0000"]) ↔
      (runTick ControllerState.new [.axisChanged .RightStickX 6000]).l_stick ≠
      (runTick ControllerState.new [.axisChanged .RightStickX 6000]).old_l_stick) :=
  claim_C8 (runTick ControllerState.new [.axisChanged .RightStickX 6000])
    ["setStick RIGHT 0x1770 0x0000"] (by decide)

/-- C9: every existing per-tick delta splits into a block of digital
commands followed by a block of analog `setStick` commands — every digital
command appears before every analog command. -/
theorem claim_C9 :
    ∀ (cs : ControllerState) (l : List String), cs.make_packets = some l →
      ∃ dl al, l = dl ++ al ∧
        (∀ p ∈ dl, ∃ b st, p = make_packet_for_button_state b st) ∧
        (∀ p ∈ al, ∃ stick v, make_packet_for_stick stick v = some p) := by
  intro cs l h
  obtain ⟨rl, ll, hsplit, hrd, hld⟩ := make_packets_eq cs l h
  refine ⟨cs.button_packets, rl ++ ll, by rw [hsplit, List.append_assoc], ?_, ?_⟩
  · intro p hp
    obtain ⟨b, st, _, hq⟩ := mem_button_packets cs p hp
    exact ⟨b, st, hq⟩
  · intro p hp
    rcases List.mem_append.mp hp with hr | hl
    · rcases hrd with ⟨_, pr, hpr, hrle⟩ | ⟨_, hrle⟩
      · subst hrle
        rw [List.mem_singleton.mp hr]
        exact ⟨.RIGHT, cs.r_stick, hpr⟩
      · subst hrle
        exact absurd hr (List.not_mem_nil p)
    · rcases hld with ⟨_, pl, hpl, hlle⟩ | ⟨_, hlle⟩
      · subst hlle
        rw [List.mem_singleton.mp hl]
        exact ⟨.LEFT, cs.l_stick, hpl⟩
      · subst hlle
        exact absurd hl (List.not_mem_nil p)

/-- Witness for C9: the ordering at a concrete tick that both presses A and
moves the left stick. -/
theorem claim_C9_witness :
    ∃ dl al, ["press A", "setStick LEFT 0x1770 0x0000"] = dl ++ al ∧
      (∀ p ∈ dl, ∃ b st, p = make_packet_for_button_state b st) ∧
      (∀ p ∈ al, ∃ stick v, make_packet_for_stick stick v = some p) :=
  claim_C9 (runTick ControllerState.new
      [.buttonPressed .East, .axisChanged .LeftStickX 6000])
    ["press A", "setStick LEFT 0x1770 0x0000"] (by decide)

/-- C10: the translation table maps the external `Unknown` physical button to
the logical CAPTURE button, so an event on an unidentified physical button is
recorded and emitted as a CAPTURE transition, while a physical button with no
table entry (such as `C` or `Z`) leaves the controller state unchanged. -/
theorem claim_C10 :
    btnAssociationGetRev .Unknown = some .CAPTURE ∧
    (∀ (cs : ControllerState) (st : ButtonState),
      process_button_action cs .Unknown st = cs.set_button_states .CAPTURE st) ∧
    (∀ (cs : ControllerState) (gb : GilrsButton) (st : ButtonState),
      btnAssociationGetRev gb = none → process_button_action cs gb st = cs) ∧
    btnAssociationGetRev .C = none ∧
    btnAssociationGetRev .Z = none ∧
    (runTick ControllerState.new
      [.buttonPressed .Unknown]).button_states .CAPTURE = some .HELD ∧
    tickDelta ControllerState.new [.buttonPressed .Unknown]
      = some ["press CAPTURE"] := by
  refine ⟨by decide, fun cs st => rfl, ?_, by decide, by decide, by decide,
    by decide⟩
  intro cs gb st h
  unfold process_button_action
  rw [h]

/-- Witness for C10: the ignore clause of `claim_C10` applied to the unmapped
physical button `C` at the initial state. -/
theorem claim_C10_witness :
    process_button_action ControllerState.new .C .HELD = ControllerState.new :=
  claim_C10.2.2.1 ControllerState.new .C .HELD (by decide)

end SwitchUsbControl
